import Mathlib

/-!
Verification development for the cleaning-schedule management system
(`webinterface/models.py`).

The Django models are embedded shallowly:

* The database is a `State` record holding one list per table.  Primary keys
  are `Nat`, epoch weeks are `Int` (Django `IntegerField`).
* Columns irrelevant to scheduling logic (names, slugs, users, comments,
  creation dates, time zones, per-task calendar windows) are omitted; no
  modelled operation reads them.
* Python `float` deployment ratios are modelled by `Rat`: with correctly
  rounded IEEE division, equal rational values of `own/total` always yield
  equal floats, so grouping by ratio equality is preserved.
* In-memory Django model instances that carry `previous_*` snapshots set in
  `__init__` (`Schedule`, `Affiliation`, `DutySwitch`) are embedded as
  separate `*Instance` structures alongside the stored records.
* `random.choice` receives an oracle `rand : Nat` and picks index
  `rand % length`; applying it to an empty list is an `IndexError`, embedded
  as `Except.error ()`.
* `ValidationError` is an explicit error value; a crashing operation returns
  `Except.error`.
-/

namespace CSMS

/-! ## Time model

`date_to_epoch_week` in the source computes
`int(((timegm(date) / 60 / 60 / 24) + 3) / 7)`.  A calendar date is embedded
as its (possibly negative) day count since 1970-01-01, so the float division
chain is exactly the day count, and Python `int(...)` truncation toward zero
is `Int.tdiv`.  (For dates representable by `datetime.date` the float
arithmetic is exact, the true quotient is at distance at least `1/7` from any
other integer, so the rounded float truncates to the same value.)
`epoch_week_to_monday` computes the date of `((week * 7) - 3)` days. -/

def date_to_epoch_week (d : Int) : Int :=
  Int.tdiv (d + 3) 7

def epoch_week_to_monday (w : Int) : Int :=
  w * 7 - 3

def epoch_week_to_sunday (w : Int) : Int :=
  w * 7 + 3

/-- Modelled from the spec: "the Monday of d's week" in the real calendar.
Day 4 (1970-01-05) is a Monday, so the Monday of the week containing day `d`
is the largest `m ≤ d` with `m ≡ 4 [ZMOD 7]`. -/
def monday_of_week_containing (d : Int) : Int :=
  d - (d - 4) % 7

/-! ## Stored records (database rows)

`Cleaner` rows carry no scheduling-relevant columns beyond their primary key,
so cleaners appear only as `Nat` keys inside other records. -/

structure ScheduleRec where
  pk : Nat
  cleaners_per_date : Nat
  weekday : Nat
  frequency : Nat
  disabled : Bool
deriving DecidableEq

structure ScheduleGroupRec where
  pk : Nat
  schedules : List Nat
  disabled : Bool
deriving DecidableEq

structure AffiliationRec where
  pk : Nat
  cleaner : Nat
  group : Nat
  beginning : Int
  ending : Int
deriving DecidableEq

structure CleaningWeekRec where
  pk : Nat
  week : Int
  schedule : Nat
  excluded : List Nat
  tasks_valid : Bool
  assignments_valid : Bool
  disabled : Bool
deriving DecidableEq

structure AssignmentRec where
  pk : Nat
  cleaner : Nat
  cleaning_week : Nat
  schedule : Nat
deriving DecidableEq

structure TaskTemplateRec where
  pk : Nat
  schedule : Nat
  task_disabled : Bool
deriving DecidableEq

structure TaskRec where
  pk : Nat
  cleaning_week : Nat
  template : Nat
  cleaned_by : Option Nat
deriving DecidableEq

structure DutySwitchRec where
  pk : Nat
  requester_assignment : Nat
  acceptor_assignment : Option Nat
deriving DecidableEq

/-- The abstract store: one list per table plus a fresh-key counter. -/
structure State where
  schedules : List ScheduleRec
  groups : List ScheduleGroupRec
  affiliations : List AffiliationRec
  cleaning_weeks : List CleaningWeekRec
  assignments : List AssignmentRec
  task_templates : List TaskTemplateRec
  tasks : List TaskRec
  duty_switches : List DutySwitchRec
  next_pk : Nat
deriving DecidableEq

/-! ## Store lookup and update helpers -/

def getCleaningWeek (s : State) (pk : Nat) : Option CleaningWeekRec :=
  s.cleaning_weeks.find? (fun cw => decide (cw.pk = pk))

def getAssignment (s : State) (pk : Nat) : Option AssignmentRec :=
  s.assignments.find? (fun a => decide (a.pk = pk))

def findCleaningWeek (s : State) (schedPk : Nat) (week : Int) : Option CleaningWeekRec :=
  s.cleaning_weeks.find? (fun cw => decide (cw.schedule = schedPk) && decide (cw.week = week))

def updateCleaningWeek (s : State) (pk : Nat) (f : CleaningWeekRec → CleaningWeekRec) : State :=
  { s with cleaning_weeks := s.cleaning_weeks.map (fun cw => if cw.pk = pk then f cw else cw) }

def updateAssignment (s : State) (pk : Nat) (f : AssignmentRec → AssignmentRec) : State :=
  { s with assignments := s.assignments.map (fun a => if a.pk = pk then f a else a) }

/-- Source `CleaningWeek.set_assignments_valid_field`: set the flag and save. -/
def set_assignments_valid_field (s : State) (pk : Nat) (value : Bool) : State :=
  updateCleaningWeek s pk (fun cw => { cw with assignments_valid := value })

/-- Source `CleaningWeek.set_tasks_valid_field`: set the flag and save. -/
def set_tasks_valid_field (s : State) (pk : Nat) (value : Bool) : State :=
  updateCleaningWeek s pk (fun cw => { cw with tasks_valid := value })

/-! ## Affiliation validation (`Affiliation.date_validator`; claim C3) -/

inductive ValidationError where
  | beginning_after_end
  | beginning_overlaps
  | end_overlaps
deriving DecidableEq

/-- Source `Affiliation.date_validator(affiliation_pk, cleaner, beginning, end)`:
reject `beginning > end`; then, among the cleaner's *other* affiliations,
reject when some other `beginning` lies in `[beginning, end]`, or some other
`end` lies in `[beginning, end]`. -/
def date_validator (s : State) (affiliation_pk : Option Nat) (cleaner : Nat)
    (beginning ending : Int) : Except ValidationError Unit :=
  if beginning > ending then .error .beginning_after_end
  else
    let other_affiliations := s.affiliations.filter (fun a =>
      decide (a.cleaner = cleaner) &&
        (match affiliation_pk with
         | some pk => decide (a.pk ≠ pk)
         | none => true))
    if other_affiliations.any (fun a =>
        decide (beginning ≤ a.beginning) && decide (a.beginning ≤ ending)) then
      .error .beginning_overlaps
    else if other_affiliations.any (fun a =>
        decide (beginning ≤ a.ending) && decide (a.ending ≤ ending)) then
      .error .end_overlaps
    else
      .ok ()

/-- Modelled from the spec: two closed integer intervals overlap when they
share at least one week. -/
def intervalsOverlap (b1 e1 b2 e2 : Int) : Prop :=
  max b1 b2 ≤ min e1 e2

/-- A store holding a single affiliation `[0, 10]` of cleaner `0`. -/
def containmentState : State :=
  { schedules := []
    groups := [{ pk := 0, schedules := [], disabled := false }]
    affiliations := [{ pk := 0, cleaner := 0, group := 0, beginning := 0, ending := 10 }]
    cleaning_weeks := []
    assignments := []
    task_templates := []
    tasks := []
    duty_switches := []
    next_pk := 1 }

/-! ## `Schedule.save` (claim C6)

The in-memory `Schedule` instance carries the `previous_*` snapshots taken in
`Schedule.__init__`. -/

structure ScheduleInstance where
  pk : Nat
  cleaners_per_date : Nat
  weekday : Nat
  frequency : Nat
  disabled : Bool
  previous_cleaners_per_date : Nat
  previous_frequency : Nat
deriving DecidableEq

/-- Store the schedule row (update in place, or insert when the key is new). -/
def upsertSchedule (s : State) (inst : ScheduleInstance) : State :=
  let row : ScheduleRec :=
    { pk := inst.pk, cleaners_per_date := inst.cleaners_per_date,
      weekday := inst.weekday, frequency := inst.frequency, disabled := inst.disabled }
  if s.schedules.any (fun r => decide (r.pk = inst.pk)) then
    { s with schedules := s.schedules.map (fun r => if r.pk = inst.pk then row else r) }
  else
    { s with schedules := s.schedules ++ [row] }

/-- Source `Schedule.save`: persist the row, then, when `frequency` or
`cleaners_per_date` changed, call `set_assignments_valid_field(False)` on
every cleaning week of this schedule with `week__gt=current_epoch_week()`.
`current_week` is the value of `current_epoch_week()` at save time. -/
def Schedule.save (current_week : Int) (s : State) (inst : ScheduleInstance) : State :=
  let s1 := upsertSchedule s inst
  if inst.previous_frequency ≠ inst.frequency ∨
      inst.previous_cleaners_per_date ≠ inst.cleaners_per_date then
    ((s1.cleaning_weeks.filter (fun cw =>
        decide (cw.schedule = inst.pk) && decide (current_week < cw.week))).map
          CleaningWeekRec.pk).foldl
      (fun st pk => set_assignments_valid_field st pk false) s1
  else
    s1

/-! ## `Affiliation.save` (claim C5)

The in-memory `Affiliation` instance carries the `previous_beginning` /
`previous_end` snapshots taken in `Affiliation.__init__`; `pk = none` means a
not-yet-persisted row. -/

structure AffiliationInstance where
  pk : Option Nat
  cleaner : Nat
  group : Nat
  beginning : Int
  ending : Int
  previous_beginning : Int
  previous_ending : Int
deriving DecidableEq

def upsertAffiliation (s : State) (inst : AffiliationInstance) : State :=
  match inst.pk with
  | some p =>
    { s with affiliations := s.affiliations.map (fun a =>
        if a.pk = p then
          { pk := p, cleaner := inst.cleaner, group := inst.group,
            beginning := inst.beginning, ending := inst.ending }
        else a) }
  | none =>
    { s with
      affiliations := s.affiliations ++
        [{ pk := s.next_pk, cleaner := inst.cleaner, group := inst.group,
           beginning := inst.beginning, ending := inst.ending }]
      next_pk := s.next_pk + 1 }

/-- Source `Affiliation.save`: run `date_validator` (raising stops the save), then,
when `beginning` or `end` changed, invalidate the symmetric difference
(`set(beginning_affects) ^ set(end_affects)`) of the two queried cleaning-week
sets, then persist the row.  `beginning_affects` is
`week__range=(min_beginning, max_beginning)` minus `week=max_beginning`;
`end_affects` is `week__range=(min_end, max_end)` minus `week=min_end`; both
query *all* cleaning weeks — the source has no schedule filter and no
current-week filter here.  Membership of a row in the symmetric difference is
the exclusive-or of the two range conditions; the Python set iteration order
is immaterial because the updates commute, so the fold runs in table order. -/
def Affiliation.save (s : State) (inst : AffiliationInstance) :
    Except ValidationError State :=
  match date_validator s inst.pk inst.cleaner inst.beginning inst.ending with
  | .error e => .error e
  | .ok _ =>
    let s1 :=
      if inst.previous_beginning ≠ inst.beginning ∨
          inst.previous_ending ≠ inst.ending then
        let min_beginning := min inst.previous_beginning inst.beginning
        let max_beginning := max inst.previous_beginning inst.beginning
        let min_end := min inst.previous_ending inst.ending
        let max_end := max inst.previous_ending inst.ending
        ((s.cleaning_weeks.filter (fun cw => decide
            (((min_beginning ≤ cw.week ∧ cw.week ≤ max_beginning ∧ cw.week ≠ max_beginning) ∧
              ¬ (min_end ≤ cw.week ∧ cw.week ≤ max_end ∧ cw.week ≠ min_end)) ∨
             ((min_end ≤ cw.week ∧ cw.week ≤ max_end ∧ cw.week ≠ min_end) ∧
              ¬ (min_beginning ≤ cw.week ∧ cw.week ≤ max_beginning ∧ cw.week ≠ max_beginning))))).map
          CleaningWeekRec.pk).foldl
          (fun st pk => set_assignments_valid_field st pk false) s
      else s
    .ok (upsertAffiliation s1 inst)

/-- Store for the C5 witness: one affiliation `[5, 50]` of cleaner `0`, and
occurrences (of some schedule `0`) in weeks 5–8. -/
def beginningShiftState : State :=
  { schedules := []
    groups := []
    affiliations := [{ pk := 0, cleaner := 0, group := 0, beginning := 5, ending := 50 }]
    cleaning_weeks :=
      [{ pk := 0, week := 5, schedule := 0, excluded := [],
         tasks_valid := true, assignments_valid := true, disabled := false },
       { pk := 1, week := 6, schedule := 0, excluded := [],
         tasks_valid := true, assignments_valid := true, disabled := false },
       { pk := 2, week := 7, schedule := 0, excluded := [],
         tasks_valid := true, assignments_valid := true, disabled := false },
       { pk := 3, week := 8, schedule := 0, excluded := [],
         tasks_valid := true, assignments_valid := true, disabled := false }]
    assignments := [], task_templates := [], tasks := [], duty_switches := []
    next_pk := 4 }

/-- In-memory affiliation whose beginning moved from 5 to 8 (end unchanged):
`A = [5, 8)`, `B = ∅`, so weeks 5, 6, 7 are invalidated. -/
def beginningShiftInstance : AffiliationInstance :=
  { pk := some 0, cleaner := 0, group := 0, beginning := 8, ending := 50,
    previous_beginning := 5, previous_ending := 50 }

/-- Store for the C5 counterexample: a lone occurrence in week 5, far in the
past relative to current week 100. -/
def pastWeekState : State :=
  { schedules := []
    groups := []
    affiliations := [{ pk := 0, cleaner := 0, group := 0, beginning := 5, ending := 50 }]
    cleaning_weeks :=
      [{ pk := 0, week := 5, schedule := 0, excluded := [],
         tasks_valid := true, assignments_valid := true, disabled := false }]
    assignments := [], task_templates := [], tasks := [], duty_switches := []
    next_pk := 1 }

/-- In-memory affiliation whose beginning moved from 5 to 6, so `A = {5}`. -/
def pastWeekInstance : AffiliationInstance :=
  { pk := some 0, cleaner := 0, group := 0, beginning := 6, ending := 50,
    previous_beginning := 5, previous_ending := 50 }

/-! ## `DutySwitch` (claims C4, C8, C9)

The in-memory `DutySwitch` instance carries the `__previous_acceptor`
snapshot taken in `DutySwitch.__init__`.  Note that `DutySwitch.save` never
refreshes the snapshot. -/

structure DutySwitchInstance where
  pk : Option Nat
  requester_assignment : Nat
  acceptor_assignment : Option Nat
  previous_acceptor : Option Nat
deriving DecidableEq

/-- Source `DutySwitch.__init__` on a stored row: the snapshot is the stored
acceptor. -/
def DutySwitch.load (r : DutySwitchRec) : DutySwitchInstance :=
  { pk := some r.pk, requester_assignment := r.requester_assignment,
    acceptor_assignment := r.acceptor_assignment,
    previous_acceptor := r.acceptor_assignment }

def upsertDutySwitch (s : State) (ds : DutySwitchInstance) : State :=
  match ds.pk with
  | some p =>
    { s with duty_switches := s.duty_switches.map (fun r =>
        if r.pk = p then
          { pk := p, requester_assignment := ds.requester_assignment,
            acceptor_assignment := ds.acceptor_assignment }
        else r) }
  | none =>
    { s with
      duty_switches := s.duty_switches ++
        [{ pk := s.next_pk, requester_assignment := ds.requester_assignment,
           acceptor_assignment := ds.acceptor_assignment }]
      next_pk := s.next_pk + 1 }

/-- Source `CleaningWeek.excluded.add(cleaner)`: many-to-many `add` is idempotent. -/
def excludedAdd (s : State) (cwPk : Nat) (cleaner : Nat) : State :=
  updateCleaningWeek s cwPk (fun cw =>
    if cleaner ∈ cw.excluded then cw
    else { cw with excluded := cw.excluded ++ [cleaner] })

/-- Source `DutySwitch.save`: when the snapshot is `None` and the acceptor is now
set, (a) add the requester's cleaner to the requester occurrence's excluded
set, (b) set the requester assignment's cleaner to the acceptor assignment's
cleaner, (c) set the acceptor assignment's cleaner to the requester's
original cleaner; then persist the row.  `none` models the (unreachable for
a consistent store) case of a dangling assignment reference. -/
def DutySwitch.save (s : State) (ds : DutySwitchInstance) : Option State :=
  match ds.previous_acceptor, ds.acceptor_assignment with
  | none, some accPk =>
    match getAssignment s ds.requester_assignment, getAssignment s accPk with
    | some req, some acc =>
      let s1 := excludedAdd s req.cleaning_week req.cleaner
      let source_cleaner := req.cleaner
      let s2 := updateAssignment s1 ds.requester_assignment
        (fun a => { a with cleaner := acc.cleaner })
      let s3 := updateAssignment s2 accPk
        (fun a => { a with cleaner := source_cleaner })
      some (upsertDutySwitch s3 ds)
    | _, _ => none
  | _, _ => some (upsertDutySwitch s ds)

/-- Source `AssignmentQuerySet.eligible_switching_destination_candidates`: same
schedule, occurrence week strictly greater than the source's, and the source
cleaner not in the candidate occurrence's excluded set. -/
def eligible_switching_destination_candidates (s : State) (source : AssignmentRec) :
    Option (List AssignmentRec) :=
  (getCleaningWeek s source.cleaning_week).map (fun scw =>
    s.assignments.filter (fun a =>
      decide (a.schedule = source.schedule) &&
      (match getCleaningWeek s a.cleaning_week with
       | some acw => decide (scw.week < acw.week) && decide (source.cleaner ∉ acw.excluded)
       | none => false)))

/-- Source `DutySwitch.possible_acceptors`: the eligible destination candidates,
minus assignments of the requester's own cleaner. -/
def possible_acceptors (s : State) (ds : DutySwitchInstance) :
    Option (List AssignmentRec) :=
  (getAssignment s ds.requester_assignment).bind (fun req =>
    (eligible_switching_destination_candidates s req).map (fun l =>
      l.filter (fun a => decide (a.cleaner ≠ req.cleaner))))

/-- Store for the swap scenario of the spec: requester's assignment (pk 0,
cleaner 0) on week 10, acceptor's assignment (pk 1, cleaner 1) on week 14,
same schedule 0, and the stored open switch row. -/
def swapState : State :=
  { schedules := [{ pk := 0, cleaners_per_date := 1, weekday := 2,
                    frequency := 1, disabled := false }]
    groups := []
    affiliations := []
    cleaning_weeks :=
      [{ pk := 0, week := 10, schedule := 0, excluded := [],
         tasks_valid := true, assignments_valid := true, disabled := false },
       { pk := 1, week := 14, schedule := 0, excluded := [],
         tasks_valid := true, assignments_valid := true, disabled := false }]
    assignments :=
      [{ pk := 0, cleaner := 0, cleaning_week := 0, schedule := 0 },
       { pk := 1, cleaner := 1, cleaning_week := 1, schedule := 0 }]
    task_templates := [], tasks := []
    duty_switches := [{ pk := 0, requester_assignment := 0, acceptor_assignment := none }]
    next_pk := 2 }

/-- The in-memory instance of the stored open switch right after the acceptor
has been set (snapshot still `none`), about to be saved. -/
def closingSwitch : DutySwitchInstance :=
  { pk := some 0, requester_assignment := 0, acceptor_assignment := some 1,
    previous_acceptor := none }

/-- The `swapState` store after the closing save has been persisted: the
switch row is closed, the swap is done. -/
def closedSwapState : State :=
  { swapState with
    cleaning_weeks :=
      [{ pk := 0, week := 10, schedule := 0, excluded := [0],
         tasks_valid := true, assignments_valid := true, disabled := false },
       { pk := 1, week := 14, schedule := 0, excluded := [],
         tasks_valid := true, assignments_valid := true, disabled := false }]
    assignments :=
      [{ pk := 0, cleaner := 1, cleaning_week := 0, schedule := 0 },
       { pk := 1, cleaner := 0, cleaning_week := 1, schedule := 0 }]
    duty_switches := [{ pk := 0, requester_assignment := 0, acceptor_assignment := some 1 }] }

/-- Store where the proposed acceptor fails *all four* eligibility
conditions of `possible_acceptors`: assignment 1 belongs to a different
schedule (1 vs 0), its occurrence week (10) is not strictly greater than the
requester's (10), the requester's cleaner 0 is already excluded on the
acceptor's occurrence, and the acceptor's cleaner equals the requester's
cleaner (both 0). -/
def fullyIneligibleState : State :=
  { schedules := []
    groups := []
    affiliations := []
    cleaning_weeks :=
      [{ pk := 0, week := 10, schedule := 0, excluded := [],
         tasks_valid := true, assignments_valid := true, disabled := false },
       { pk := 1, week := 10, schedule := 1, excluded := [0],
         tasks_valid := true, assignments_valid := true, disabled := false }]
    assignments :=
      [{ pk := 0, cleaner := 0, cleaning_week := 0, schedule := 0 },
       { pk := 1, cleaner := 0, cleaning_week := 1, schedule := 1 }]
    task_templates := [], tasks := []
    duty_switches := [{ pk := 0, requester_assignment := 0, acceptor_assignment := none }]
    next_pk := 2 }

/-- Store where the proposed acceptor fails the strictly-greater-week
condition (both occurrences in week 10) but has a different cleaner, making
the executed swap visible on the cleaner columns. -/
def sameWeekState : State :=
  { schedules := []
    groups := []
    affiliations := []
    cleaning_weeks :=
      [{ pk := 0, week := 10, schedule := 0, excluded := [],
         tasks_valid := true, assignments_valid := true, disabled := false },
       { pk := 1, week := 10, schedule := 0, excluded := [],
         tasks_valid := true, assignments_valid := true, disabled := false }]
    assignments :=
      [{ pk := 0, cleaner := 0, cleaning_week := 0, schedule := 0 },
       { pk := 1, cleaner := 1, cleaning_week := 1, schedule := 0 }]
    task_templates := [], tasks := []
    duty_switches := [{ pk := 0, requester_assignment := 0, acceptor_assignment := none }]
    next_pk := 2 }

/-! ## Fair-share assignment engine (`Schedule.create_assignment`;
claims C1, C2, C10) -/

/-- Source `Schedule.occurs_in_week`: `frequency == 1 or frequency == 2 and
week % 2 == 0 or frequency == 3 and week % 2 == 1`.  Lean's `%` on `Int` is
Euclidean remainder, matching Python's nonnegative `%` for modulus 2. -/
def occurs_in_week (frequency : Nat) (week : Int) : Bool :=
  decide (frequency = 1) ||
    (decide (frequency = 2) && decide (week % 2 = 0)) ||
    (decide (frequency = 3) && decide (week % 2 = 1))

/-- The Django join `group__schedules=schedule`: the affiliation's group row
lists the schedule. -/
def groupHasSchedule (s : State) (g schedPk : Nat) : Bool :=
  s.groups.any (fun gr => decide (gr.pk = g) && decide (schedPk ∈ gr.schedules))

/-- Source `AffiliationQuerySet.active_in_week_for_schedule`:
`beginning <= week <= end` and the group is eligible for the schedule. -/
def active_in_week_for_schedule (s : State) (week : Int) (schedPk : Nat) :
    List AffiliationRec :=
  s.affiliations.filter (fun a =>
    decide (a.beginning ≤ week) && decide (week ≤ a.ending) &&
      groupHasSchedule s a.group schedPk)

/-- Source `Schedule.constant_affiliation_timespan`: fold max of beginnings and min
of ends over the active affiliations, seeded from the first one; `none` when
no affiliation is active. -/
def constant_affiliation_timespan (s : State) (schedPk : Nat) (week : Int) :
    Option (Int × Int) :=
  match active_in_week_for_schedule s week schedPk with
  | [] => none
  | a :: rest =>
    some (rest.foldl (fun mws aff =>
      (if aff.beginning > mws.1 then aff.beginning else mws.1,
       if aff.ending < mws.2 then aff.ending else mws.2))
      (a.beginning, a.ending))

/-- Source `Cleaner.deployment_ratio`: own assignment count over total assignment
count among assignments of the schedule within `[from_week, to_week]` (via
the assignment's cleaning week); `0` when the total is `0`. -/
def deployment_share (s : State) (cleaner schedPk : Nat) (from_week to_week : Int) :
    Rat :=
  let all_assignments := s.assignments.filter (fun a =>
    match getCleaningWeek s a.cleaning_week with
    | some cw => decide (from_week ≤ cw.week) && decide (cw.week ≤ to_week) &&
        decide (cw.schedule = schedPk)
    | none => false)
  let all_assignment_count := all_assignments.length
  let own_assignment_count :=
    (all_assignments.filter (fun a => decide (a.cleaner = cleaner))).length
  if all_assignment_count ≠ 0 then
    mkRat own_assignment_count all_assignment_count
  else 0

/-- Stable insertion placing `x` after all entries with value `≤ x.2`. -/
def insertByShare (x : Nat × Rat) : List (Nat × Rat) → List (Nat × Rat)
  | [] => [x]
  | y :: ys => if x.2 < y.2 then x :: y :: ys else y :: insertByShare x ys

/-- Python's stable `sorted(..., key=itemgetter(1))`, ascending. -/
def sortByShare (l : List (Nat × Rat)) : List (Nat × Rat) :=
  l.foldl (fun acc x => insertByShare x acc) []

def insertAsc {α : Type} [LinearOrder α] (x : α) : List α → List α
  | [] => [x]
  | y :: ys => if x < y then x :: y :: ys else y :: insertAsc x ys

/-- Source `list(set(...))` followed by `.sort()`: ascending order of the distinct
values (the input is deduplicated before calling this). -/
def sortAsc {α : Type} [LinearOrder α] (l : List α) : List α :=
  l.foldl (fun acc x => insertAsc x acc) []

/-- Source `Cleaner.nr_assignments_in_week`: assignment count of the cleaner in the
week, over all schedules. -/
def nr_assignments_in_week (s : State) (cleaner : Nat) (week : Int) : Nat :=
  (s.assignments.filter (fun a =>
    decide (a.cleaner = cleaner) &&
      (match getCleaningWeek s a.cleaning_week with
       | some cw => decide (cw.week = week)
       | none => false))).length

/-- Source `Schedule.deployment_ratios`: the active cleaners with their deployment
shares over the constant-affiliation timespan, sorted ascending by share
(stably, like Python's `sorted`); `[]` when no affiliation is active. -/
def deployment_shares (s : State) (sched : ScheduleRec) (week : Int) :
    List (Nat × Rat) :=
  match constant_affiliation_timespan s sched.pk week with
  | none => []
  | some minimal_week_set =>
    sortByShare ((active_in_week_for_schedule s week sched.pk).map (fun aff =>
      (aff.cleaner,
       deployment_share s aff.cleaner sched.pk minimal_week_set.1 minimal_week_set.2)))

/-- The excluded set of a cleaning week, read from the store (the Python
code re-queries `cleaning_week.excluded.all()` inside the loop). -/
def excludedOf (s : State) (cwPk : Nat) : List Nat :=
  ((getCleaningWeek s cwPk).map CleaningWeekRec.excluded).getD []

/-- The grouped selection loop of `Schedule.create_assignment` (steps 7a–7c
of the spec).  For each same-ratio group in ascending ratio order: filter the
excluded cleaners out, group the *whole* ratio group's distinct
per-week assignment counts ascending, slice the non-excluded members by
those counts, and — exactly like the Python `for` body, which returns
unconditionally on its first iteration — apply `random.choice` to the first
slice.  `random.choice` of an empty list raises `IndexError`, embedded as
`Except.error ()`; otherwise the oracle `rand` picks the index.  An exhausted
groups list yields `.ok none`, the Python `for ... else` fall-through. -/
def chooseFromGroups (s : State) (cwPk : Nat) (week : Int) (rand : Nat) :
    List (List Nat) → Except Unit (Option Nat)
  | [] => .ok none
  | same_ratio_group :: rest =>
    let non_excluded := same_ratio_group.filter (fun c => decide (c ∉ excludedOf s cwPk))
    let nr_assignments :=
      sortAsc ((same_ratio_group.map (fun c => nr_assignments_in_week s c week)).dedup)
    let grouped_by_assignment_count := nr_assignments.map (fun count =>
      non_excluded.filter (fun c => decide (nr_assignments_in_week s c week = count)))
    match grouped_by_assignment_count with
    | [] => chooseFromGroups s cwPk week rand rest
    | g :: _ =>
      match g with
      | [] => .error ()
      | c :: cs =>
        .ok (some ((c :: cs).get ⟨rand % (c :: cs).length, Nat.mod_lt _ (Nat.succ_pos _)⟩))

/-- Deleting assignments cascades: `DutySwitch.requester_assignment` has
`on_delete=CASCADE`, `acceptor_assignment` has `on_delete=SET_NULL`. -/
def deleteDutySwitchesOfAssignments (s : State) (pks : List Nat) : State :=
  let remaining :=
    (s.duty_switches.filter (fun d => decide (d.requester_assignment ∉ pks))).map
      (fun d => match d.acceptor_assignment with
        | some a => if a ∈ pks then { d with acceptor_assignment := none } else d
        | none => d)
  { s with duty_switches := remaining }

/-- Source `cleaning_week.assignment_set.all().delete()` with its cascades. -/
def delete_assignments_of_cleaning_week (s : State) (cwPk : Nat) : State :=
  let doomed := (s.assignments.filter (fun a => decide (a.cleaning_week = cwPk))).map
    AssignmentRec.pk
  deleteDutySwitchesOfAssignments
    { s with assignments := s.assignments.filter (fun a => decide (a.cleaning_week ≠ cwPk)) }
    doomed

/-- Source `cleaning_week.delete()` with its cascades (assignments and tasks of the
week are deleted, duty switches cascade through the assignments). -/
def delete_cleaning_week (s : State) (cwPk : Nat) : State :=
  let s1 := delete_assignments_of_cleaning_week s cwPk
  { s1 with
    cleaning_weeks := s1.cleaning_weeks.filter (fun cw => decide (cw.pk ≠ cwPk))
    tasks := s1.tasks.filter (fun t => decide (t.cleaning_week ≠ cwPk)) }

/-- Source `self.cleaningweek_set.get_or_create(week=week)`: the in-memory record
returned is the found row, or a fresh row with both validity flags false. -/
def get_or_create_cleaning_week (s : State) (schedPk : Nat) (week : Int) :
    State × CleaningWeekRec :=
  match findCleaningWeek s schedPk week with
  | some cw => (s, cw)
  | none =>
    let cw : CleaningWeekRec :=
      { pk := s.next_pk, week := week, schedule := schedPk, excluded := [],
        tasks_valid := false, assignments_valid := false, disabled := false }
    ({ s with cleaning_weeks := s.cleaning_weeks ++ [cw], next_pk := s.next_pk + 1 }, cw)

def add_task_for_template (cwPk : Nat) (st : State) (tt : TaskTemplateRec) : State :=
  { st with
    tasks := st.tasks ++
      [{ pk := st.next_pk, cleaning_week := cwPk, template := tt.pk, cleaned_by := none }]
    next_pk := st.next_pk + 1 }

/-- Source `CleaningWeek.create_missing_tasks`: create a task for every enabled
task template of the schedule that has no task in this week yet, then set
`tasks_valid = True` and save.  Existing tasks are never touched. -/
def create_missing_tasks (s : State) (cw : CleaningWeekRec) : State :=
  let existing_templates :=
    (s.tasks.filter (fun t => decide (t.cleaning_week = cw.pk))).map TaskRec.template
  let missing := s.task_templates.filter (fun tt =>
    decide (tt.schedule = cw.schedule) && !tt.task_disabled &&
      decide (tt.pk ∉ existing_templates))
  let s1 := missing.foldl (add_task_for_template cw.pk) s
  set_tasks_valid_field s1 cw.pk true

/-- The visit step of `Schedule.create_assignment` (source lines 164–169):
get-or-create the cleaning week, refresh tasks when `tasks_valid` is unset,
and when `assignments_valid` is unset delete all the week's assignments and
set the flag to true. -/
def visitCleaningWeek (s : State) (schedPk : Nat) (week : Int) :
    State × CleaningWeekRec :=
  let r := get_or_create_cleaning_week s schedPk week
  let s2 := if r.2.tasks_valid then r.1 else create_missing_tasks r.1 r.2
  let s3 :=
    if r.2.assignments_valid then s2
    else set_assignments_valid_field (delete_assignments_of_cleaning_week s2 r.2.pk)
      r.2.pk true
  (s3, r.2)

/-- Source `Schedule.create_assignment(week)`: the full engine step.  Returns the
updated store and whether an assignment was created; `.error ()` is an
unhandled `IndexError` escaping from `random.choice`. -/
def create_assignment (s : State) (sched : ScheduleRec) (week : Int) (rand : Nat) :
    Except Unit (State × Bool) :=
  if sched.disabled then .ok (s, false)
  else if !occurs_in_week sched.frequency week then
    match findCleaningWeek s sched.pk week with
    | some cw => .ok (delete_cleaning_week s cw.pk, false)
    | none => .ok (s, false)
  else
    let r := visitCleaningWeek s sched.pk week
    if (r.1.assignments.filter (fun a => decide (a.cleaning_week = r.2.pk))).length
        ≥ sched.cleaners_per_date then
      .ok (r.1, false)
    else
      match deployment_shares r.1 sched week with
      | [] => .ok (r.1, false)
      | r0 :: rrest =>
        let ratios := r0 :: rrest
        let distinct_ratio_values := sortAsc (ratios.map Prod.snd).dedup
        let grouped_by_ratios := distinct_ratio_values.map (fun val =>
          (ratios.filter (fun x => decide (x.2 = val))).map Prod.fst)
        match chooseFromGroups r.1 r.2.pk week rand grouped_by_ratios with
        | .error e => .error e
        | .ok (some choice) =>
          .ok ({ r.1 with
            assignments := r.1.assignments ++
              [{ pk := r.1.next_pk, cleaner := choice, cleaning_week := r.2.pk,
                 schedule := sched.pk }]
            next_pk := r.1.next_pk + 1 }, true)
        | .ok none =>
          .ok ({ r.1 with
            assignments := r.1.assignments ++
              [{ pk := r.1.next_pk, cleaner := r0.1, cleaning_week := r.2.pk,
                 schedule := sched.pk }]
            next_pk := r.1.next_pk + 1 }, true)

def schedule0 : ScheduleRec :=
  { pk := 0, cleaners_per_date := 1, weekday := 2, frequency := 1, disabled := false }

/-- Enabled weekly schedule 0 with one slot; cleaner 0 affiliated for weeks
`[0, 100]`; the week-10 occurrence exists, is valid, has no assignments and
excludes cleaner 0 — so the only eligible cleaner is excluded. -/
def singleExcludedState : State :=
  { schedules := [schedule0]
    groups := [{ pk := 0, schedules := [0], disabled := false }]
    affiliations := [{ pk := 0, cleaner := 0, group := 0, beginning := 0, ending := 100 }]
    cleaning_weeks :=
      [{ pk := 0, week := 10, schedule := 0, excluded := [0],
         tasks_valid := true, assignments_valid := true, disabled := false }]
    assignments := [], task_templates := [], tasks := [], duty_switches := []
    next_pk := 1 }

/-- Like `singleExcludedState` but with a second cleaner 1 who is *not*
excluded and has strictly larger deployment share (one prior assignment in
week 8), so the claimed behaviour would be to skip cleaner 0's exhausted
ratio group and assign cleaner 1. -/
def excludedLowestState : State :=
  { schedules := [schedule0]
    groups := [{ pk := 0, schedules := [0], disabled := false }]
    affiliations :=
      [{ pk := 0, cleaner := 0, group := 0, beginning := 0, ending := 100 },
       { pk := 1, cleaner := 1, group := 0, beginning := 0, ending := 100 }]
    cleaning_weeks :=
      [{ pk := 0, week := 10, schedule := 0, excluded := [0],
         tasks_valid := true, assignments_valid := true, disabled := false },
       { pk := 1, week := 8, schedule := 0, excluded := [],
         tasks_valid := true, assignments_valid := true, disabled := false }]
    assignments := [{ pk := 0, cleaner := 1, cleaning_week := 1, schedule := 0 }]
    task_templates := [], tasks := [], duty_switches := []
    next_pk := 2 }

/-- Store for the C10 witness: the week-10 occurrence of schedule 0 is
stale (`assignments_valid = false`), carries an exclusion, a disabled flag,
one completed task, and one of the two stored assignments; the other
assignment belongs to another occurrence. -/
def staleState : State :=
  { schedules := [schedule0]
    groups := [{ pk := 0, schedules := [0], disabled := false }]
    affiliations := [{ pk := 0, cleaner := 0, group := 0, beginning := 0, ending := 100 }]
    cleaning_weeks :=
      [{ pk := 0, week := 10, schedule := 0, excluded := [5],
         tasks_valid := true, assignments_valid := false, disabled := true }]
    assignments :=
      [{ pk := 0, cleaner := 0, cleaning_week := 0, schedule := 0 },
       { pk := 1, cleaner := 0, cleaning_week := 7, schedule := 0 }]
    task_templates := []
    tasks := [{ pk := 2, cleaning_week := 0, template := 9, cleaned_by := some 4 }]
    duty_switches := []
    next_pk := 3 }

/-! ## Lemmas and claim theorems -/

/-- Claim C7: for every epoch week `w`, `date_to_epoch_week
(epoch_week_to_monday w) = w`, and — as amended — for every date `d` on or
after 1969-12-29 (day `-3`), `epoch_week_to_monday (date_to_epoch_week d)`
falls on the Monday of the week of `d`.  The unrestricted Monday property claimed by
the spec fails for earlier dates because Python `int()` truncates toward
zero (see the counterexample theorem). -/
theorem epoch_week_roundtrip :
    (∀ w : Int, date_to_epoch_week (epoch_week_to_monday w) = w) ∧
    (∀ d : Int, -3 ≤ d →
      epoch_week_to_monday (date_to_epoch_week d) = monday_of_week_containing d) := by
  constructor
  · intro w
    have h7 : (7 : Int) ≠ 0 := by norm_num
    have : epoch_week_to_monday w + 3 = 7 * w := by
      unfold epoch_week_to_monday; ring
    unfold date_to_epoch_week
    rw [this, Int.mul_tdiv_cancel_left _ h7]
  · intro d hd
    have h1 : (0 : Int) ≤ d + 3 := by omega
    unfold date_to_epoch_week epoch_week_to_monday monday_of_week_containing
    rw [Int.tdiv_eq_ediv h1 (by norm_num)]
    omega

/-- Witness for the amended part of claim C7 at the concrete date `d = 10`
(1970-01-11). -/
theorem epoch_week_roundtrip_witness :
    (-3 : Int) ≤ 10 ∧
      epoch_week_to_monday (date_to_epoch_week 10) = monday_of_week_containing 10 :=
  ⟨by decide, epoch_week_roundtrip.2 10 (by decide)⟩

/-- Claim C7, counterexample: for the pre-epoch date `d = -5` (Saturday,
1969-12-27) the code maps `d` to week `0` (truncation toward zero), whose
Monday is day `-3`, while the Monday of the week of `d` is day `-10`.  So
`epoch_week_to_monday (date_to_epoch_week d)` does not fall on the Monday of
the week of `d` for every date. -/
theorem epoch_week_monday_fails_before_epoch :
    epoch_week_to_monday (date_to_epoch_week (-5)) = -3 ∧
      monday_of_week_containing (-5) = -10 ∧ ((-3 : Int) ≠ -10) := by
  refine ⟨by decide, by decide, by decide⟩

/-- Claim C3: creating an affiliation `[3, 5]` for cleaner `0`, which is
strictly contained in (and hence overlaps) the cleaner's existing affiliation
`[0, 10]`, passes `date_validator` without a `ValidationError`: the validator
only tests whether the *other* affiliation's endpoints fall inside the new
interval, so a containing interval is not detected.  This contradicts the
model's own docstring ("no two Affiliations of a Cleaner overlapping in time.
This constraint is enforced by the model") and the spec. -/
theorem date_validator_accepts_strictly_contained_interval :
    date_validator containmentState none 0 3 5 = .ok () ∧
      intervalsOverlap 0 10 3 5 := by
  exact ⟨rfl, by unfold intervalsOverlap; decide⟩

lemma foldl_set_assignments_valid (l : List Nat) (s : State) (v : Bool) :
    (l.foldl (fun st pk => set_assignments_valid_field st pk v) s).cleaning_weeks
      = s.cleaning_weeks.map
          (fun cw => if cw.pk ∈ l then { cw with assignments_valid := v } else cw) := by
  induction l generalizing s with
  | nil =>
    simp
  | cons p rest ih =>
    rw [List.foldl_cons, ih]
    show (s.cleaning_weeks.map _).map _ = _
    rw [List.map_map]
    refine List.map_congr_left ?_
    intro cw _
    by_cases h : cw.pk = p
    · by_cases h2 : cw.pk ∈ rest <;>
        simp [Function.comp, h, h2, List.mem_cons]
    · by_cases h2 : cw.pk ∈ rest <;>
        simp [Function.comp, h, h2, List.mem_cons]

/-- For a table with no duplicate primary keys, a row's key occurs among the
keys of the rows selected by a filter exactly when the row itself satisfies
the filter. -/
lemma pk_mem_filter_map_iff {l : List CleaningWeekRec}
    (hnd : (l.map CleaningWeekRec.pk).Nodup) (p : CleaningWeekRec → Bool)
    {cw : CleaningWeekRec} (hmem : cw ∈ l) :
    cw.pk ∈ (l.filter p).map CleaningWeekRec.pk ↔ p cw = true := by
  constructor
  · intro h
    rcases List.mem_map.1 h with ⟨cw', hcw', hpk⟩
    rcases List.mem_filter.1 hcw' with ⟨hmem', hp⟩
    have : cw' = cw := List.inj_on_of_nodup_map hnd hmem' hmem hpk
    exact this ▸ hp
  · intro h
    exact List.mem_map.2 ⟨cw, List.mem_filter.2 ⟨hmem, h⟩, rfl⟩

lemma upsertSchedule_cleaning_weeks (s : State) (inst : ScheduleInstance) :
    (upsertSchedule s inst).cleaning_weeks = s.cleaning_weeks := by
  unfold upsertSchedule
  split <;> rfl

/-- Claim C6 (amended): when a schedule's `frequency` or `cleaners_per_date`
changed, `Schedule.save` sets `assignments_valid := false` on exactly the
schedule's cleaning weeks whose week is *strictly after* the current week,
and leaves every other cleaning week — including the current week's —
unchanged.  (The claim's "including the current week's Occurrence" is
refuted by the counterexample theorem: the query uses `week__gt`.) -/
theorem schedule_save_invalidates_strictly_future_weeks
    (current_week : Int) (s : State) (inst : ScheduleInstance)
    (hnd : (s.cleaning_weeks.map CleaningWeekRec.pk).Nodup)
    (hch : inst.previous_frequency ≠ inst.frequency ∨
      inst.previous_cleaners_per_date ≠ inst.cleaners_per_date) :
    (Schedule.save current_week s inst).cleaning_weeks
      = s.cleaning_weeks.map (fun cw =>
          if cw.schedule = inst.pk ∧ current_week < cw.week then
            { cw with assignments_valid := false }
          else cw) := by
  unfold Schedule.save
  rw [if_pos hch, foldl_set_assignments_valid, upsertSchedule_cleaning_weeks]
  refine List.map_congr_left ?_
  intro cw hcw
  have hiff := pk_mem_filter_map_iff hnd
    (fun cw => decide (cw.schedule = inst.pk) && decide (current_week < cw.week)) hcw
  by_cases h : cw.schedule = inst.pk ∧ current_week < cw.week
  · rw [if_pos (hiff.2 (by simp [h.1, h.2])), if_pos h]
  · rw [if_neg (fun hmem => h (by simpa using hiff.1 hmem)), if_neg h]

/-- Witness for claim C6's amended theorem on a concrete store: one schedule
(pk 0) whose frequency changed, with cleaning weeks in weeks 9, 10 and 11
around current week 10; only week 11 is invalidated. -/
theorem schedule_save_invalidates_strictly_future_weeks_witness :
    ((10 : Int) < 11) ∧
    (Schedule.save 10
        { schedules := [{ pk := 0, cleaners_per_date := 1, weekday := 2,
                          frequency := 2, disabled := false }]
          groups := [], affiliations := []
          cleaning_weeks :=
            [{ pk := 0, week := 9, schedule := 0, excluded := [],
               tasks_valid := true, assignments_valid := true, disabled := false },
             { pk := 1, week := 10, schedule := 0, excluded := [],
               tasks_valid := true, assignments_valid := true, disabled := false },
             { pk := 2, week := 11, schedule := 0, excluded := [],
               tasks_valid := true, assignments_valid := true, disabled := false }]
          assignments := [], task_templates := [], tasks := [], duty_switches := []
          next_pk := 3 }
        { pk := 0, cleaners_per_date := 1, weekday := 2, frequency := 2,
          disabled := false, previous_cleaners_per_date := 1,
          previous_frequency := 1 }).cleaning_weeks
      = [{ pk := 0, week := 9, schedule := 0, excluded := [],
           tasks_valid := true, assignments_valid := true, disabled := false },
         { pk := 1, week := 10, schedule := 0, excluded := [],
           tasks_valid := true, assignments_valid := true, disabled := false },
         { pk := 2, week := 11, schedule := 0, excluded := [],
           tasks_valid := true, assignments_valid := false, disabled := false }] := by
  refine ⟨by decide, ?_⟩
  rw [schedule_save_invalidates_strictly_future_weeks 10 _ _ (by decide) (by decide)]
  rfl

/-- Claim C6, counterexample: with current week 10 and an occurrence of the
changed schedule in week 10 itself, `Schedule.save` leaves the current
week's occurrence valid (`assignments_valid` stays `true`), because the
source filters with `week__gt=current_epoch_week()` — strictly greater —
while the claim demands invalidation "including the current week's
Occurrence". -/
theorem schedule_save_skips_current_week :
    ((Schedule.save 10
        { schedules := [{ pk := 0, cleaners_per_date := 1, weekday := 2,
                          frequency := 2, disabled := false }]
          groups := [], affiliations := []
          cleaning_weeks :=
            [{ pk := 0, week := 10, schedule := 0, excluded := [],
               tasks_valid := true, assignments_valid := true, disabled := false }]
          assignments := [], task_templates := [], tasks := [], duty_switches := []
          next_pk := 1 }
        { pk := 0, cleaners_per_date := 1, weekday := 2, frequency := 2,
          disabled := false, previous_cleaners_per_date := 1,
          previous_frequency := 1 }).cleaning_weeks.map
        (fun cw => (cw.week, cw.assignments_valid)))
      = [((10 : Int), true)] := by
  rfl

lemma upsertAffiliation_cleaning_weeks (s : State) (inst : AffiliationInstance) :
    (upsertAffiliation s inst).cleaning_weeks = s.cleaning_weeks := by
  unfold upsertAffiliation
  cases inst.pk <;> rfl

/-- Claim C5 (amended): when an affiliation's interval changes from
`[b0, e0]` to `[b1, e1]` and validation passes, saving it sets
`assignments_valid := false` on exactly the existing occurrences whose week
lies in the symmetric difference of `A = [min(b0,b1), max(b0,b1))` and
`B = (min(e0,e1), max(e0,e1)]`, over *all* weeks — the source applies no
current-week cutoff, so past occurrences are rewritten too (see the
counterexample theorem); everything else about each occurrence is
unchanged. -/
theorem affiliation_save_invalidates_symmetric_difference
    (s : State) (inst : AffiliationInstance)
    (hnd : (s.cleaning_weeks.map CleaningWeekRec.pk).Nodup)
    (hval : date_validator s inst.pk inst.cleaner inst.beginning inst.ending = .ok ())
    (hch : inst.previous_beginning ≠ inst.beginning ∨
      inst.previous_ending ≠ inst.ending) :
    (Affiliation.save s inst).map State.cleaning_weeks
      = .ok (s.cleaning_weeks.map (fun cw =>
          if ((min inst.previous_beginning inst.beginning ≤ cw.week ∧
                cw.week < max inst.previous_beginning inst.beginning) ∧
              ¬ (min inst.previous_ending inst.ending < cw.week ∧
                cw.week ≤ max inst.previous_ending inst.ending)) ∨
             ((min inst.previous_ending inst.ending < cw.week ∧
                cw.week ≤ max inst.previous_ending inst.ending) ∧
              ¬ (min inst.previous_beginning inst.beginning ≤ cw.week ∧
                cw.week < max inst.previous_beginning inst.beginning)) then
            { cw with assignments_valid := false }
          else cw)) := by
  unfold Affiliation.save
  rw [hval]
  simp only [if_pos hch, Except.map]
  rw [upsertAffiliation_cleaning_weeks, foldl_set_assignments_valid]
  congr 1
  refine List.map_congr_left ?_
  intro cw hcw
  have hiff := pk_mem_filter_map_iff hnd
    (fun cw => decide
      (((min inst.previous_beginning inst.beginning ≤ cw.week ∧
         cw.week ≤ max inst.previous_beginning inst.beginning ∧
         cw.week ≠ max inst.previous_beginning inst.beginning) ∧
        ¬ (min inst.previous_ending inst.ending ≤ cw.week ∧
           cw.week ≤ max inst.previous_ending inst.ending ∧
           cw.week ≠ min inst.previous_ending inst.ending)) ∨
       ((min inst.previous_ending inst.ending ≤ cw.week ∧
         cw.week ≤ max inst.previous_ending inst.ending ∧
         cw.week ≠ min inst.previous_ending inst.ending) ∧
        ¬ (min inst.previous_beginning inst.beginning ≤ cw.week ∧
           cw.week ≤ max inst.previous_beginning inst.beginning ∧
           cw.week ≠ max inst.previous_beginning inst.beginning)))) hcw
  by_cases h :
      ((min inst.previous_beginning inst.beginning ≤ cw.week ∧
        cw.week < max inst.previous_beginning inst.beginning) ∧
       ¬ (min inst.previous_ending inst.ending < cw.week ∧
         cw.week ≤ max inst.previous_ending inst.ending)) ∨
      ((min inst.previous_ending inst.ending < cw.week ∧
        cw.week ≤ max inst.previous_ending inst.ending) ∧
       ¬ (min inst.previous_beginning inst.beginning ≤ cw.week ∧
         cw.week < max inst.previous_beginning inst.beginning))
  · rw [if_pos, if_pos h]
    refine hiff.2 ?_
    rw [decide_eq_true_eq]
    omega
  · rw [if_neg, if_neg h]
    intro hmem
    have := hiff.1 hmem
    rw [decide_eq_true_eq] at this
    omega

/-- Witness for claim C5's amended theorem: shifting the beginning from week
5 to week 8 invalidates exactly weeks 5, 6 and 7. -/
theorem affiliation_save_invalidates_symmetric_difference_witness :
    (Affiliation.save beginningShiftState beginningShiftInstance).map
        (fun s' => s'.cleaning_weeks.map (fun cw => (cw.week, cw.assignments_valid)))
      = .ok [((5 : Int), false), (6, false), (7, false), (8, true)] := by
  have h := affiliation_save_invalidates_symmetric_difference
    beginningShiftState beginningShiftInstance (by decide) (by rfl) (by decide)
  rw [show (Affiliation.save beginningShiftState beginningShiftInstance).map
        (fun s' => s'.cleaning_weeks.map (fun cw => (cw.week, cw.assignments_valid)))
      = ((Affiliation.save beginningShiftState beginningShiftInstance).map
          State.cleaning_weeks).map
          (fun l => l.map (fun cw => (cw.week, cw.assignments_valid))) from by
        cases Affiliation.save beginningShiftState beginningShiftInstance <;> rfl, h]
  rfl

/-- Claim C5, counterexample: `Affiliation.save` never consults
`current_epoch_week()`, so with the current week at 100 the occurrence in
week 5 — strictly in the past — still gets `assignments_valid := false`,
refuting "only on Occurrences whose week is at or after the current week;
Occurrences in weeks before the current week are never rewritten". -/
theorem affiliation_save_invalidates_past_week :
    (Affiliation.save pastWeekState pastWeekInstance).map
        (fun s' => s'.cleaning_weeks.map (fun cw => (cw.week, cw.assignments_valid)))
      = .ok [((5 : Int), false)] ∧ ((5 : Int) < 100) :=
  ⟨rfl, by decide⟩

lemma upsertDutySwitch_frame (s : State) (ds : DutySwitchInstance) :
    (upsertDutySwitch s ds).cleaning_weeks = s.cleaning_weeks ∧
    (upsertDutySwitch s ds).assignments = s.assignments ∧
    (upsertDutySwitch s ds).tasks = s.tasks := by
  unfold upsertDutySwitch
  cases ds.pk <;> exact ⟨rfl, rfl, rfl⟩

/-- Effect of `DutySwitch.save` on an open switch with a freshly set
acceptor: requester's cleaner is recorded in the requester occurrence's
excluded set, the two assignments' cleaners are exchanged, and nothing else
in any table except `duty_switches` changes. -/
lemma dutySwitch_save_open_spec (s : State) (dpk : Option Nat) (drq accPk : Nat)
    (req acc : AssignmentRec)
    (hreq : getAssignment s drq = some req)
    (hacc2 : getAssignment s accPk = some acc) :
    DutySwitch.save s
        { pk := dpk, requester_assignment := drq,
          acceptor_assignment := some accPk, previous_acceptor := none }
      = some (upsertDutySwitch
        { s with
          cleaning_weeks := s.cleaning_weeks.map (fun cw =>
            if cw.pk = req.cleaning_week then
              (if req.cleaner ∈ cw.excluded then cw
               else { cw with excluded := cw.excluded ++ [req.cleaner] })
            else cw)
          assignments := s.assignments.map (fun a =>
            if a.pk = accPk then { a with cleaner := req.cleaner }
            else if a.pk = drq then { a with cleaner := acc.cleaner }
            else a) }
        { pk := dpk, requester_assignment := drq,
          acceptor_assignment := some accPk, previous_acceptor := none }) := by
  simp only [DutySwitch.save, hreq, hacc2]
  congr 1
  dsimp only [updateAssignment, excludedAdd, updateCleaningWeek]
  congr 1
  rw [List.map_map]
  congr 1
  refine List.map_congr_left ?_
  intro a _
  by_cases h2 : a.pk = accPk <;> by_cases h1 : a.pk = drq
  · have h3 : accPk = drq := by rw [← h2, h1]
    simp [Function.comp, h1, h2, h3]
  · have h3 : ¬ accPk = drq := fun h => h1 (h2.trans h)
    simp [Function.comp, h1, h2, h3]
  · simp [Function.comp, h1, h2]
  · simp [Function.comp, h1, h2]

/-- Claim C8: on the Open→Closed transition (snapshot `none`, acceptor now
set), `DutySwitch.save` (a) adds the requester's original cleaner to the
requester occurrence's excluded set, (b) sets the requester assignment's
cleaner to the acceptor's cleaner, (c) sets the acceptor assignment's
cleaner to the requester's original cleaner, and changes no other
assignment, no other occurrence, and no task. -/
theorem duty_switch_save_open_to_closed_swaps (s : State) (dpk : Option Nat)
    (drq accPk : Nat) (req acc : AssignmentRec)
    (hreq : getAssignment s drq = some req)
    (hacc2 : getAssignment s accPk = some acc) :
    (DutySwitch.save s
        { pk := dpk, requester_assignment := drq,
          acceptor_assignment := some accPk, previous_acceptor := none }).map
        State.cleaning_weeks
      = some (s.cleaning_weeks.map (fun cw =>
          if cw.pk = req.cleaning_week then
            (if req.cleaner ∈ cw.excluded then cw
             else { cw with excluded := cw.excluded ++ [req.cleaner] })
          else cw)) ∧
    (DutySwitch.save s
        { pk := dpk, requester_assignment := drq,
          acceptor_assignment := some accPk, previous_acceptor := none }).map
        State.assignments
      = some (s.assignments.map (fun a =>
          if a.pk = accPk then { a with cleaner := req.cleaner }
          else if a.pk = drq then { a with cleaner := acc.cleaner }
          else a)) ∧
    (DutySwitch.save s
        { pk := dpk, requester_assignment := drq,
          acceptor_assignment := some accPk, previous_acceptor := none }).map
        State.tasks
      = some s.tasks := by
  rw [dutySwitch_save_open_spec s dpk drq accPk req acc hreq hacc2]
  refine ⟨?_, ?_, ?_⟩
  · rw [Option.map_some', (upsertDutySwitch_frame _ _).1]
  · rw [Option.map_some', (upsertDutySwitch_frame _ _).2.1]
  · rw [Option.map_some', (upsertDutySwitch_frame _ _).2.2]

/-- Witness for claim C8 on the spec's swap scenario: after the closing
save, cleaner 0 is excluded on week 10's occurrence and the two assignments'
cleaners are exchanged. -/
theorem duty_switch_save_open_to_closed_swaps_witness :
    (DutySwitch.save swapState closingSwitch).map State.cleaning_weeks
      = some [{ pk := 0, week := 10, schedule := 0, excluded := [0],
                tasks_valid := true, assignments_valid := true, disabled := false },
              { pk := 1, week := 14, schedule := 0, excluded := [],
                tasks_valid := true, assignments_valid := true, disabled := false }] ∧
    (DutySwitch.save swapState closingSwitch).map State.assignments
      = some [{ pk := 0, cleaner := 1, cleaning_week := 0, schedule := 0 },
              { pk := 1, cleaner := 0, cleaning_week := 1, schedule := 0 }] := by
  have h := duty_switch_save_open_to_closed_swaps swapState (some 0) 0 1
    { pk := 0, cleaner := 0, cleaning_week := 0, schedule := 0 }
    { pk := 1, cleaner := 1, cleaning_week := 1, schedule := 0 } rfl rfl
  exact ⟨h.1, h.2.1⟩

/-- Claim C4 (amended): saving a `DutySwitch` instance that was *loaded*
with its acceptor already set is a no-op on assignments and excluded sets:
`__init__` snapshots the stored acceptor, so the Open→Closed branch is not
taken. -/
theorem duty_switch_closed_on_load_save_is_noop (s : State) (r : DutySwitchRec)
    (a : Nat) (h : r.acceptor_assignment = some a) :
    (DutySwitch.save s (DutySwitch.load r)).map State.assignments
        = some s.assignments ∧
    (DutySwitch.save s (DutySwitch.load r)).map State.cleaning_weeks
        = some s.cleaning_weeks := by
  constructor
  · simp only [DutySwitch.save, DutySwitch.load, h, Option.map_some']
    exact congrArg some (upsertDutySwitch_frame _ _).2.1
  · simp only [DutySwitch.save, DutySwitch.load, h, Option.map_some']
    exact congrArg some (upsertDutySwitch_frame _ _).1

/-- Witness for claim C4's amended theorem: re-loading the now-closed switch
row from `closedSwapState` and saving it changes neither the assignments nor
the occurrences. -/
theorem duty_switch_closed_on_load_save_is_noop_witness :
    (DutySwitch.save closedSwapState
        (DutySwitch.load
          { pk := 0, requester_assignment := 0, acceptor_assignment := some 1 })).map
        State.assignments
      = some closedSwapState.assignments ∧
    (DutySwitch.save closedSwapState
        (DutySwitch.load
          { pk := 0, requester_assignment := 0, acceptor_assignment := some 1 })).map
        State.cleaning_weeks
      = some closedSwapState.cleaning_weeks :=
  duty_switch_closed_on_load_save_is_noop closedSwapState
    { pk := 0, requester_assignment := 0, acceptor_assignment := some 1 } 1 rfl

/-- Claim C4, counterexample: the snapshot `__previous_acceptor` is never
refreshed by `save`, so saving the *same in-memory instance* a second time —
at which point its `acceptor_assignment` is already set and the switch is
already Closed — re-executes the swap: the second save changes both
assignments' cleaners (swapping them back) and grows week 10's excluded set
to `[0, 1]`, refuting "a second save of the switch changes no Assignment's
cleaner and no occurrence's excluded set". -/
theorem duty_switch_double_save_reswaps :
    ((DutySwitch.save swapState closingSwitch).bind
        (fun s1 => DutySwitch.save s1 closingSwitch)).map
        (fun s2 => (s2.assignments.map (fun a => (a.pk, a.cleaner)),
                    s2.cleaning_weeks.map (fun cw => (cw.pk, cw.excluded))))
      = some ([(0, 0), (1, 1)], [(0, [0, 1]), (1, [])]) ∧
    (DutySwitch.save swapState closingSwitch).map
        (fun s1 => (s1.assignments.map (fun a => (a.pk, a.cleaner)),
                    s1.cleaning_weeks.map (fun cw => (cw.pk, cw.excluded))))
      = some ([(0, 1), (1, 0)], [(0, [0]), (1, [])]) :=
  ⟨rfl, rfl⟩

/-- Claim C9: `DutySwitch.save` never consults the eligibility predicate.
First conjunct: for *every* store and *any* acceptor assignment whatsoever,
saving an open switch with the acceptor set executes the swap — the
statement carries no eligibility hypothesis at all.  The remaining conjuncts
instantiate this at stores where the acceptor is ineligible:
in `fullyIneligibleState` every one of the four `possible_acceptors`
conditions fails (`possible_acceptors` returns the empty list), yet the save
still runs the swap branch (cleaner 0 is added to the requester occurrence's
excluded set); in `sameWeekState` the acceptor is also ineligible, and the
save visibly exchanges the two assignments' cleaners. -/
theorem duty_switch_save_ignores_eligibility :
    (∀ (s : State) (dpk : Option Nat) (drq accPk : Nat) (req acc : AssignmentRec),
      getAssignment s drq = some req →
      getAssignment s accPk = some acc →
      (DutySwitch.save s
          { pk := dpk, requester_assignment := drq,
            acceptor_assignment := some accPk, previous_acceptor := none }).map
          State.assignments
        = some (s.assignments.map (fun a =>
            if a.pk = accPk then { a with cleaner := req.cleaner }
            else if a.pk = drq then { a with cleaner := acc.cleaner }
            else a)) ∧
      (DutySwitch.save s
          { pk := dpk, requester_assignment := drq,
            acceptor_assignment := some accPk, previous_acceptor := none }).map
          State.cleaning_weeks
        = some (s.cleaning_weeks.map (fun cw =>
            if cw.pk = req.cleaning_week then
              (if req.cleaner ∈ cw.excluded then cw
               else { cw with excluded := cw.excluded ++ [req.cleaner] })
            else cw))) ∧
    possible_acceptors fullyIneligibleState closingSwitch = some [] ∧
    (DutySwitch.save fullyIneligibleState closingSwitch).map
        (fun s' => s'.cleaning_weeks.map (fun cw => (cw.pk, cw.excluded)))
      = some [(0, [0]), (1, [0])] ∧
    possible_acceptors sameWeekState closingSwitch = some [] ∧
    (DutySwitch.save sameWeekState closingSwitch).map
        (fun s' => s'.assignments.map (fun a => (a.pk, a.cleaner)))
      = some [(0, 1), (1, 0)] := by
  refine ⟨?_, rfl, rfl, rfl, rfl⟩
  intro s dpk drq accPk req acc hreq hacc2
  rw [dutySwitch_save_open_spec s dpk drq accPk req acc hreq hacc2]
  refine ⟨?_, ?_⟩
  · rw [Option.map_some', (upsertDutySwitch_frame _ _).2.1]
  · rw [Option.map_some', (upsertDutySwitch_frame _ _).1]

/-- Witness for claim C9's universally quantified conjunct, instantiated in
`sameWeekState` where the acceptor fails eligibility: the swap still
executes. -/
theorem duty_switch_save_ignores_eligibility_witness :
    (DutySwitch.save sameWeekState closingSwitch).map State.assignments
        = some [{ pk := 0, cleaner := 1, cleaning_week := 0, schedule := 0 },
                { pk := 1, cleaner := 0, cleaning_week := 1, schedule := 0 }] ∧
    (DutySwitch.save sameWeekState closingSwitch).map State.cleaning_weeks
        = some [{ pk := 0, week := 10, schedule := 0, excluded := [0],
                  tasks_valid := true, assignments_valid := true, disabled := false },
                { pk := 1, week := 10, schedule := 0, excluded := [],
                  tasks_valid := true, assignments_valid := true, disabled := false }] :=
  duty_switch_save_ignores_eligibility.1 sameWeekState (some 0) 0 1
    { pk := 0, cleaner := 0, cleaning_week := 0, schedule := 0 }
    { pk := 1, cleaner := 1, cleaning_week := 1, schedule := 0 } rfl rfl

/-- Claim C2, failing input: with a single eligible cleaner who is in the
occurrence's excluded set, `create_assignment` reaches `random.choice` with
an empty candidate sub-group and raises `IndexError` (`.error ()`) instead
of returning a no-assignment outcome: the only ratio group is `[0]`, the
non-excluded filtrate is empty, yet the per-week-count slicing still
produces the sub-group list `[[]]` whose first element is handed to
`random.choice`.  The conjuncts pin down the scenario: the deployment-share
list is `[(0, 0)]` and cleaner 0 is excluded. -/
theorem create_assignment_crashes_with_single_excluded_cleaner :
    deployment_shares singleExcludedState schedule0 10 = [(0, 0)] ∧
    excludedOf singleExcludedState 0 = [0] ∧
    create_assignment singleExcludedState schedule0 10 0 = .error () :=
  ⟨rfl, rfl, rfl⟩

/-- Claim C1, failing input: cleaner 0 has the strictly lowest deployment
share (0 vs 1) but is excluded; cleaner 1 is eligible and not excluded.
The claim says the engine skips the exhausted lowest-ratio group and
continues to cleaner 1's group (and, were everyone excluded, would fall back
ignoring exclusion).  Instead the code raises `IndexError` from
`random.choice` on the empty filtrate of the *first* ratio group — the
"continue to the next ratio group" step and the `for ... else` fallback
(source lines 211–215) are unreachable. -/
theorem create_assignment_crashes_instead_of_skipping_excluded_group :
    deployment_shares excludedLowestState schedule0 10 = [(0, 0), (1, 1)] ∧
    excludedOf excludedLowestState 0 = [0] ∧
    create_assignment excludedLowestState schedule0 10 0 = .error () :=
  ⟨by decide, rfl, rfl⟩

lemma delete_assignments_of_cleaning_week_frame (s : State) (cwPk : Nat) :
    (delete_assignments_of_cleaning_week s cwPk).cleaning_weeks = s.cleaning_weeks ∧
    (delete_assignments_of_cleaning_week s cwPk).tasks = s.tasks ∧
    (delete_assignments_of_cleaning_week s cwPk).schedules = s.schedules ∧
    (delete_assignments_of_cleaning_week s cwPk).affiliations = s.affiliations ∧
    (delete_assignments_of_cleaning_week s cwPk).assignments
      = s.assignments.filter (fun a => decide (a.cleaning_week ≠ cwPk)) :=
  ⟨rfl, rfl, rfl, rfl, rfl⟩

lemma foldl_add_task_frame (cwPk : Nat) (l : List TaskTemplateRec) (s : State) :
    (l.foldl (add_task_for_template cwPk) s).schedules = s.schedules ∧
    (l.foldl (add_task_for_template cwPk) s).affiliations = s.affiliations ∧
    (l.foldl (add_task_for_template cwPk) s).cleaning_weeks = s.cleaning_weeks ∧
    (l.foldl (add_task_for_template cwPk) s).assignments = s.assignments ∧
    (∀ t ∈ s.tasks, t ∈ (l.foldl (add_task_for_template cwPk) s).tasks) := by
  induction l generalizing s with
  | nil => exact ⟨rfl, rfl, rfl, rfl, fun t ht => ht⟩
  | cons x xs ih =>
    refine ⟨(ih _).1, (ih _).2.1, (ih _).2.2.1, (ih _).2.2.2.1, ?_⟩
    intro t ht
    exact (ih _).2.2.2.2 t (List.mem_append_left _ ht)

lemma create_missing_tasks_spec (s : State) (cw : CleaningWeekRec) :
    (create_missing_tasks s cw).schedules = s.schedules ∧
    (create_missing_tasks s cw).affiliations = s.affiliations ∧
    (create_missing_tasks s cw).cleaning_weeks
      = s.cleaning_weeks.map (fun c =>
          if c.pk = cw.pk then { c with tasks_valid := true } else c) ∧
    (create_missing_tasks s cw).assignments = s.assignments ∧
    (∀ t ∈ s.tasks, t ∈ (create_missing_tasks s cw).tasks) := by
  simp only [create_missing_tasks, set_tasks_valid_field, updateCleaningWeek]
  refine ⟨(foldl_add_task_frame _ _ _).1, (foldl_add_task_frame _ _ _).2.1, ?_,
    (foldl_add_task_frame _ _ _).2.2.2.1, ?_⟩
  · rw [(foldl_add_task_frame _ _ _).2.2.1]
  · intro t ht
    exact (foldl_add_task_frame _ _ _).2.2.2.2 t ht

/-- Claim C10: when `create_assignment`'s visit step reaches an existing
occurrence with `assignments_valid = false`, it deletes exactly that
occurrence's assignments and sets `assignments_valid := true`, while the
occurrence's week, schedule, excluded set and disabled flag are untouched
(they are not even mentioned by the update), every existing task — with its
`cleaned_by` value — survives (a pending task refresh only *adds* missing
tasks), and no other occurrence's assignments are removed. -/
theorem visit_cleaning_week_recompute_frame (s : State) (schedPk : Nat) (week : Int)
    (cw : CleaningWeekRec)
    (hfind : findCleaningWeek s schedPk week = some cw)
    (hinvalid : cw.assignments_valid = false) :
    (visitCleaningWeek s schedPk week).2 = cw ∧
    (visitCleaningWeek s schedPk week).1.cleaning_weeks
      = s.cleaning_weeks.map (fun c =>
          if c.pk = cw.pk then
            { c with tasks_valid := (if cw.tasks_valid then c.tasks_valid else true),
                     assignments_valid := true }
          else c) ∧
    (visitCleaningWeek s schedPk week).1.assignments
      = s.assignments.filter (fun a => decide (a.cleaning_week ≠ cw.pk)) ∧
    (∀ t ∈ s.tasks, t ∈ (visitCleaningWeek s schedPk week).1.tasks) ∧
    (visitCleaningWeek s schedPk week).1.schedules = s.schedules ∧
    (visitCleaningWeek s schedPk week).1.affiliations = s.affiliations := by
  unfold visitCleaningWeek get_or_create_cleaning_week
  rw [hfind]
  by_cases htv : cw.tasks_valid
  · simp only [htv, hinvalid, if_true, if_false, Bool.false_eq_true, ite_true, ite_false]
    unfold set_assignments_valid_field updateCleaningWeek
    refine ⟨trivial, ?_, ?_, ?_, ?_, ?_⟩
    · rw [(delete_assignments_of_cleaning_week_frame s cw.pk).1]
    · exact (delete_assignments_of_cleaning_week_frame s cw.pk).2.2.2.2
    · intro t ht
      exact ((delete_assignments_of_cleaning_week_frame s cw.pk).2.1).symm ▸ ht
    · exact (delete_assignments_of_cleaning_week_frame s cw.pk).2.2.1
    · exact (delete_assignments_of_cleaning_week_frame s cw.pk).2.2.2.1
  · simp only [htv, hinvalid, if_true, if_false, Bool.false_eq_true, ite_true, ite_false]
    unfold set_assignments_valid_field updateCleaningWeek
    refine ⟨trivial, ?_, ?_, ?_, ?_, ?_⟩
    · rw [(delete_assignments_of_cleaning_week_frame (create_missing_tasks s cw) cw.pk).1,
        (create_missing_tasks_spec s cw).2.2.1, List.map_map]
      refine List.map_congr_left ?_
      intro c _
      by_cases hc : c.pk = cw.pk <;> simp [Function.comp, hc, htv]
    · rw [(delete_assignments_of_cleaning_week_frame (create_missing_tasks s cw) cw.pk).2.2.2.2,
        (create_missing_tasks_spec s cw).2.2.2.1]
    · intro t ht
      have h1 := (create_missing_tasks_spec s cw).2.2.2.2 t ht
      exact ((delete_assignments_of_cleaning_week_frame
        (create_missing_tasks s cw) cw.pk).2.1).symm ▸ h1
    · exact ((delete_assignments_of_cleaning_week_frame
          (create_missing_tasks s cw) cw.pk).2.2.1).trans (create_missing_tasks_spec s cw).1
    · exact ((delete_assignments_of_cleaning_week_frame
          (create_missing_tasks s cw) cw.pk).2.2.2.1).trans (create_missing_tasks_spec s cw).2.1

/-- Witness for claim C10 in `staleState`: the visit deletes only the
occurrence's own assignment, flips `assignments_valid` to true, keeps week,
excluded set and disabled flag, and the completed task survives
untouched. -/
theorem visit_cleaning_week_recompute_frame_witness :
    (visitCleaningWeek staleState 0 10).2
      = { pk := 0, week := 10, schedule := 0, excluded := [5],
          tasks_valid := true, assignments_valid := false, disabled := true } ∧
    (visitCleaningWeek staleState 0 10).1.cleaning_weeks
      = [{ pk := 0, week := 10, schedule := 0, excluded := [5],
           tasks_valid := true, assignments_valid := true, disabled := true }] ∧
    (visitCleaningWeek staleState 0 10).1.assignments
      = [{ pk := 1, cleaner := 0, cleaning_week := 7, schedule := 0 }] ∧
    ({ pk := 2, cleaning_week := 0, template := 9, cleaned_by := some 4 } : TaskRec)
      ∈ (visitCleaningWeek staleState 0 10).1.tasks := by
  have h := visit_cleaning_week_recompute_frame staleState 0 10
    { pk := 0, week := 10, schedule := 0, excluded := [5],
      tasks_valid := true, assignments_valid := false, disabled := true } rfl rfl
  exact ⟨h.1, h.2.1, h.2.2.1,
    h.2.2.2.1 { pk := 2, cleaning_week := 0, template := 9, cleaned_by := some 4 }
      (by decide)⟩

end CSMS
